import Mathlib

/-!
Verification of the nn_adapt driver scripts (`examples/run_adapt.py` and
`examples/run_uniform_refinement.py`) against their natural-language
specification.  The scripts are shallowly embedded: each observable step of
the Python code becomes a Lean definition, external collaborators (PDE
solver, mesh adaptation, feature extraction) are abstracted as function
parameters, and Python exceptions are modelled with `Except`.
-/

namespace NnAdapt

/-- Which `assert` statement of the scripts fired (observable in the Python
traceback line). -/
inductive AssertSite
  | modelCheck
  | testCaseCheck
  | numRefinementsCheck
  | targetFinite
  | adaptTestCase
  deriving DecidableEq, Repr

/-- The Python exceptions the two driver scripts can themselves raise. -/
inductive PyError
  | nameError (name : String)
  | keyError (key : String)
  | valueError
  | assertionError (site : AssertSite)
  | notImplementedError
  deriving DecidableEq, Repr

/-- Value of a nonempty all-digit character list, `none` otherwise. -/
def parseDigits (cs : List Char) : Option Nat :=
  if cs = [] then none
  else if cs.all Char.isDigit then
    some (cs.foldl (fun a c => 10 * a + (c.toNat - 48)) 0)
  else none

/-- Strip leading and trailing whitespace from a character list. -/
def trimChars (cs : List Char) : List Char :=
  ((cs.dropWhile Char.isWhitespace).reverse.dropWhile Char.isWhitespace).reverse

/-- Python's `int(s)` on a string: optional surrounding whitespace, optional
sign, then decimal digits; `none` models a `ValueError`. -/
def pyInt (s : String) : Option Int :=
  match trimChars s.data with
  | '-' :: cs => (parseDigits cs).map fun n => -(n : Int)
  | '+' :: cs => (parseDigits cs).map fun n => (n : Int)
  | cs => (parseDigits cs).map fun n => (n : Int)

/-! ## run_uniform_refinement.py -/

/-- The values bound by lines 14-19 of `run_uniform_refinement.py` when all
validation passes. -/
structure UniformConfig where
  model : String
  test_case : Int
  num_refinements : Int
  deriving DecidableEq, Repr

/-- Lines 14-19 of `run_uniform_refinement.py`:
`assert model in ['stokes', 'turbine']`,
`test_case = int(parsed_args.test_case)`,
`assert test_case in list(range(12))`,
`num_refinements = int(parsed_args.num_refinements or 5)`,
`assert num_refinements >= 0`. -/
def uniformArgs (model test_case : String) (num_refinements : Option String) :
    Except PyError UniformConfig := do
  if ¬ (model = "stokes" ∨ model = "turbine") then
    throw (PyError.assertionError AssertSite.modelCheck)
  let tc ← match pyInt test_case with
    | none => throw PyError.valueError
    | some n => pure n
  if ¬ tc ∈ (List.range 12).map Int.ofNat then
    throw (PyError.assertionError AssertSite.testCaseCheck)
  let nr ← match num_refinements with
    | none => pure (5 : Int)
    | some s =>
      if s = "" then pure (5 : Int)
      else match pyInt s with
        | none => throw PyError.valueError
        | some n => pure n
  if ¬ 0 ≤ nr then
    throw (PyError.assertionError AssertSite.numRefinementsCheck)
  return ⟨model, tc, nr⟩

/-- The on-disk arrays of the sweep: `none` models a file that was never
written by `np.save`. -/
structure SweepDisk where
  qois_file : Option (List ℚ)
  dofs_file : Option (List Nat)
  elements_file : Option (List Nat)
  deriving DecidableEq, Repr

/-- The in-memory state of the sweep loop of `run_uniform_refinement.py`:
the three parallel arrays, the QoI values printed so far (one per level for
which `J` was computed), and the persisted arrays. -/
structure SweepState where
  qois : List ℚ
  dofs : List Nat
  elements : List Nat
  printed : List ℚ
  disk : SweepDisk
  deriving DecidableEq, Repr

def initSweepState : SweepState := ⟨[], [], [], [], ⟨none, none, none⟩⟩

/-- Looking up the name `qoi` in the script's scope.  `qoi` is never bound
anywhere in `run_uniform_refinement.py` (the computed quantity of interest
is bound to `J` on line 37), so the reference on line 39 raises `NameError`;
the spec's design notes record this as a latent defect of the script. -/
def lookup_qoi : Except PyError ℚ := throw (PyError.nameError "qoi")

/-- One pass of the sweep loop (lines 32-44) at hierarchy level `i`:
solve (external), assemble `J` and print it, append `qoi` (the unbound
name), append the DoF count and element count, then `np.save` all three
arrays.  An exception carries the state reached before it was raised. -/
def sweepLevel (qoiOf : Nat → ℚ) (dofOf cellsOf : Nat → Nat) (i : Nat)
    (st : SweepState) : SweepState × Option PyError :=
  let J := qoiOf i
  let st := { st with printed := st.printed ++ [J] }
  match lookup_qoi with
  | .error e => (st, some e)
  | .ok q =>
    let st := { st with qois := st.qois ++ [q] }
    let st := { st with dofs := st.dofs ++ [dofOf i] }
    let st := { st with elements := st.elements ++ [cellsOf i] }
    ({ st with disk := ⟨some st.qois, some st.dofs, some st.elements⟩ }, none)

/-- The sweep loop over the remaining hierarchy levels; an uncaught
exception aborts the loop. -/
def runSweepFrom (qoiOf : Nat → ℚ) (dofOf cellsOf : Nat → Nat) :
    List Nat → SweepState → SweepState × Option PyError
  | [], st => (st, none)
  | i :: rest, st =>
    match sweepLevel qoiOf dofOf cellsOf i st with
    | (st2, some e) => (st2, some e)
    | (st2, none) => runSweepFrom qoiOf dofOf cellsOf rest st2

/-- The full sweep over a `MeshHierarchy` with `levels` meshes
(`num_refinements + 1` levels).  The external solver stack is abstracted by
`qoiOf` (assembled QoI at level `i`), `dofOf` and `cellsOf`. -/
def runSweep (qoiOf : Nat → ℚ) (dofOf cellsOf : Nat → Nat) (levels : Nat) :
    SweepState × Option PyError :=
  runSweepFrom qoiOf dofOf cellsOf (List.range levels) initSweepState

/-- The whole script `run_uniform_refinement.py`: argument validation
(lines 14-19) runs before any heavy computation (module import, mesh load,
hierarchy construction, solves); if validation raises, the sweep state is
untouched. -/
def run_uniform_refinement (model test_case : String)
    (num_refinements : Option String)
    (qoiOf : Nat → ℚ) (dofOf cellsOf : Nat → Nat) :
    SweepState × Option PyError :=
  match uniformArgs model test_case num_refinements with
  | .error e => (initSweepState, some e)
  | .ok cfg => runSweep qoiOf dofOf cellsOf (cfg.num_refinements.toNat + 1)

/-! ## run_adapt.py : data model -/

/-- A floating-point value as observed by `np.isnan`: finite, NaN, or a
signed infinity. -/
inductive FVal
  | finite (x : ℚ)
  | nan
  | inf
  | ninf
  deriving DecidableEq, Repr

def FVal.isnan : FVal → Bool
  | .nan => true
  | _ => false

def FVal.isfinite : FVal → Bool
  | .finite _ => true
  | _ => false

/-- A Firedrake function as the script observes it: its component data and
the total DoF count of its function space
(`sum(fwd_sol.function_space().dof_count)`). -/
structure FdFunction where
  comps : List ℚ
  dof : Nat
  deriving DecidableEq, Repr

/-- A Firedrake function space as the script observes it: its number of
components, its DoF count, and whether a direct `Function.project` onto it
raises `NotImplementedError` (mixed/composite spaces). -/
structure FunctionSpace where
  nComp : Nat
  dof : Nat
  mixedProjectUnsupported : Bool
  deriving DecidableEq, Repr

/-- Model of `Function(V)`: a fresh zero function on the space `V` (line 102). -/
def functionOn (V : FunctionSpace) : FdFunction :=
  ⟨List.replicate V.nComp 0, V.dof⟩

/-- Model of `ic.project(fwd_sol)` (line 104): the external projection, abstracted by
the per-component map `P`; raises `NotImplementedError` when direct
projection onto `V` is unsupported. -/
def projectFunction (P : ℚ → ℚ) (V : FunctionSpace) (ic fwd : FdFunction) :
    Except PyError FdFunction :=
  if V.mixedProjectUnsupported then throw PyError.notImplementedError
  else pure { ic with comps := fwd.comps.map P }

/-- The nested `proj` function of `run_adapt.py` (lines 97-108): allocate
`ic` on `V`, try the direct projection, and on `NotImplementedError` project
each component of `fwd_sol` into the matching component of `ic`
(`zip(ic.split(), fwd_sol.split())`); return `ic` in either case. -/
def proj (P : ℚ → ℚ) (V : FunctionSpace) (fwd_sol : FdFunction) : FdFunction :=
  let ic := functionOn V
  match projectFunction P V ic fwd_sol with
  | .ok ic2 => ic2
  | .error _ => { ic with comps := (ic.comps.zip fwd_sol.comps).map fun p => P p.2 }

/-- The result bundle returned by `go_metric`: `qoi` and `forward` are
always present; `estimator`, `adjoint`, `dwr` and `metric` are dictionary
keys that may be absent.  The `dwr` entry is kept already flattened
(`dwr.dat.data.flatten()`), the raw metric data is opaque to the script. -/
structure GoBundle where
  qoi : ℚ
  forward : FdFunction
  estimator : Option ℚ
  adjoint : Option FdFunction
  dwr : Option (List FVal)
  metric : Option (List ℚ)
  deriving DecidableEq, Repr

/-- Python dictionary access `out[key]`: raises `KeyError` on a missing
key. -/
def dictGet {α : Type} (o : Option α) (key : String) : Except PyError α :=
  match o with
  | some a => pure a
  | none => throw (PyError.keyError key)

/-- The externally observable actions of one pass of the adaptation loop. -/
inductive AdaptEvent
  | reportQoiDof (qoi : ℚ) (dof : Nat)
  | reportEstimator (est : ℚ)
  | writeVizFiles
  | setInitialGuess
  | saveFeature (key : String)
  | saveTarget
  | processMetric
  | adaptMesh
  deriving DecidableEq, Repr

/-- Whether the pass ended in `break` or fell through to the convergence
checks. -/
inductive PassOutcome
  | brk
  | cont
  deriving DecidableEq, Repr

/-- The flags of `run_adapt.py` relevant to the loop body
(`no_outputs` already includes the `or optimise` of line 40). -/
structure AdaptFlags where
  optimise : Bool
  no_outputs : Bool
  transfer : Bool
  deriving DecidableEq, Repr

/-- Lines 115-121 of `run_adapt.py`: unless `optimise`, extract features
(external), flatten the `dwr` data into `target`, run
`assert not np.isnan(target).any()`, then `np.save` each feature file and
finally the target file.  The returned events are the files written, in
order; an `AssertionError` writes nothing. -/
def featureBlock (optimise : Bool) (featureKeys : List String)
    (target : List FVal) : Except PyError (List AdaptEvent) :=
  if optimise then pure []
  else if target.any FVal.isnan then
    throw (PyError.assertionError AssertSite.targetFinite)
  else pure ((featureKeys.map AdaptEvent.saveFeature) ++ [AdaptEvent.saveTarget])

/-- The body of the adaptation loop (lines 72-136) applied to the bundle
`out` returned by `go_metric`: report QoI and DoF count; `break` when
`"adjoint" not in out`; read `out["estimator"]` and report it; `break` when
`"metric" not in out`; read `out["adjoint"]`, `out["dwr"]`, `out["metric"]`;
write visualization files unless `no_outputs`; install the `proj` initial
guess when `transfer`; run the feature block unless `optimise`; process the
metric and adapt the mesh. -/
def passBody (flags : AdaptFlags) (featureKeys : List String)
    (out : GoBundle) : Except PyError (List AdaptEvent × PassOutcome) := do
  let qoi := out.qoi
  let fwd_sol := out.forward
  let dof := fwd_sol.dof
  let evs := [AdaptEvent.reportQoiDof qoi dof]
  if out.adjoint.isNone then return (evs, PassOutcome.brk)
  let est ← dictGet out.estimator "estimator"
  let evs := evs ++ [AdaptEvent.reportEstimator est]
  if out.metric.isNone then return (evs, PassOutcome.brk)
  let _adj_sol ← dictGet out.adjoint "adjoint"
  let dwr ← dictGet out.dwr "dwr"
  let _p0metric ← dictGet out.metric "metric"
  let evs := if flags.no_outputs then evs else evs ++ [AdaptEvent.writeVizFiles]
  let evs := if flags.transfer then evs ++ [AdaptEvent.setInitialGuess] else evs
  let fevs ← featureBlock flags.optimise featureKeys dwr
  let evs := evs ++ fevs
  let evs := evs ++ [AdaptEvent.processMetric, AdaptEvent.adaptMesh]
  return (evs, PassOutcome.cont)

/-! ## Convergence tracker (spec-modelled) -/

/-- The three terminal conditions the tracker can report. -/
inductive ConvergedReason
  | elementConverged
  | qoiConverged
  | maxiterReached
  deriving DecidableEq, Repr

/-- Modelled from the spec: the `ConvergenceTracker` of `nn_adapt.utility`,
whose source is not part of this repository (only its call sites are).  It
holds the iteration index, the previously recorded element count (none
before the first observation), the max-iteration bound, the element-count
tolerance, and the reported terminal condition. -/
structure ConvergenceTracker where
  maxiter : Nat
  element_rtol : ℚ
  elements_old : Option Nat
  fp_iteration : Nat
  converged_reason : Option ConvergedReason
  deriving DecidableEq, Repr

/-- Relative change between a new and a previous value. -/
def relChange (count prev : ℚ) : ℚ :=
  (if prev ≤ count then count - prev else prev - count) / prev

/-- Modelled from the spec: `ConvergenceTracker.check_elements` of
`nn_adapt.utility` (source not in this repository).  Returns true (signals
convergence) when the relative change between `count` and the previous
recorded count falls below the tolerance; otherwise records `count` as the
new previous value and returns false; on the very first call there is no
previous count, so it only records the baseline and returns false. -/
def check_elements (ct : ConvergenceTracker) (count : Nat) :
    Bool × ConvergenceTracker :=
  match ct.elements_old with
  | none => (false, { ct with elements_old := some count })
  | some prev =>
    if relChange (count : ℚ) (prev : ℚ) < ct.element_rtol then
      (true, { ct with converged_reason := some ConvergedReason.elementConverged })
    else
      (false, { ct with elements_old := some count })

/-- Modelled from the spec: `ConvergenceTracker.check_maxiter` of
`nn_adapt.utility` (source not in this repository).  Signals termination
exactly when the iteration index equals the configured maximum, recording
the max-iteration terminal condition, which is distinct from the two
convergence conditions. -/
def check_maxiter (ct : ConvergenceTracker) : Bool × ConvergenceTracker :=
  if ct.fp_iteration = ct.maxiter then
    (true, { ct with converged_reason := some ConvergedReason.maxiterReached })
  else (false, ct)

/-- Feed a sequence of element counts to the tracker, collecting the value
returned by each `check_elements` call. -/
def feedElements (ct : ConvergenceTracker) : List Nat → List Bool
  | [] => []
  | c :: cs =>
    let r := check_elements ct c
    r.1 :: feedElements r.2 cs

/-- Modelled from the spec: `ramp_complexity` of `nn_adapt` (source not in
this repository).  A pure function of (base, target, iteration index):
linear interpolation from `base` to `target` in the iteration index,
clamped at `target` from the configured fully-ramped iteration
`num_iterations` onwards. -/
def ramp_complexity (base target : ℚ) (i : Nat) (num_iterations : Nat) : ℚ :=
  let alpha := min ((i : ℚ) / (num_iterations : ℚ)) 1
  alpha * target + (1 - alpha) * base

/-! ## run_adapt.py : the fixed-point loop -/

/-- Outcome of a run of the adaptation loop: the events of all passes in
order, the `fp_iteration` value of each executed pass, the final tracker
state, and the uncaught exception if one aborted the loop. -/
structure AdaptRunResult where
  events : List AdaptEvent
  passes : List Nat
  ct : ConvergenceTracker
  err : Option PyError
  deriving DecidableEq, Repr

/-- The `for ct.fp_iteration in range(ct.maxiter + 1)` loop of
`run_adapt.py` (lines 71-144) over the remaining iteration indices: assign
`ct.fp_iteration`, run the pass body on the bundle `go_metric` returns for
this pass, and on fall-through read the adapted mesh's element count, call
`check_elements` (breaking when it returns true) and then `check_maxiter`.
The external services are abstracted by `bundles` (the `go_metric` result
of pass `i`) and `cells` (the element count of the mesh adapted in
pass `i`). -/
def adaptIter (flags : AdaptFlags) (featureKeys : List String)
    (bundles : Nat → GoBundle) (cells : Nat → Nat) :
    List Nat → ConvergenceTracker → AdaptRunResult
  | [], ct => ⟨[], [], ct, none⟩
  | i :: rest, ct =>
    let ct1 := { ct with fp_iteration := i }
    match passBody flags featureKeys (bundles i) with
    | .error e => ⟨[], [i], ct1, some e⟩
    | .ok (evs, PassOutcome.brk) => ⟨evs, [i], ct1, none⟩
    | .ok (evs, PassOutcome.cont) =>
      let elements := cells i
      let res := check_elements ct1 elements
      if res.1 then ⟨evs, [i], res.2, none⟩
      else
        let ct3 := (check_maxiter res.2).2
        let r := adaptIter flags featureKeys bundles cells rest ct3
        ⟨evs ++ r.events, i :: r.passes, r.ct, r.err⟩

/-- The full adaptation loop of `run_adapt.py`, iterating over
`range(ct0.maxiter + 1)`. -/
def run_adapt (flags : AdaptFlags) (featureKeys : List String)
    (bundles : Nat → GoBundle) (cells : Nat → Nat)
    (ct0 : ConvergenceTracker) : AdaptRunResult :=
  adaptIter flags featureKeys bundles cells (List.range (ct0.maxiter + 1)) ct0

/-! ## run_adapt.py : test_case argument handling -/

/-- The `test_case` value after argument handling: an integer case or a
string identifier. -/
inductive TestCase
  | intCase (n : Int)
  | strCase (s : String)
  deriving DecidableEq, Repr

/-- Lines 31-35 of `run_adapt.py`: try `int(parsed_args.test_case)` and
`assert test_case > 0`; only a `ValueError` from the conversion is caught,
falling back to the raw string; an `AssertionError` propagates. -/
def parse_test_case (s : String) : Except PyError TestCase :=
  match pyInt s with
  | some n =>
    if n > 0 then .ok (TestCase.intCase n)
    else .error (PyError.assertionError AssertSite.adaptTestCase)
  | none => .ok (TestCase.strCase s)

/-! ## Helper lemmas -/

theorem check_elements_fp_iteration (ct : ConvergenceTracker) (c : Nat) :
    (check_elements ct c).2.fp_iteration = ct.fp_iteration := by
  rcases h : ct.elements_old with _ | p <;> simp [check_elements, h]
  split <;> rfl

theorem check_maxiter_fp_iteration (ct : ConvergenceTracker) :
    (check_maxiter ct).2.fp_iteration = ct.fp_iteration := by
  unfold check_maxiter; split <;> rfl

theorem adaptIter_cons_cont_eq (flags : AdaptFlags) (keys : List String)
    (bundles : Nat → GoBundle) (cells : Nat → Nat) (i : Nat) (rest : List Nat)
    (ct : ConvergenceTracker) (evs : List AdaptEvent)
    (hpb : passBody flags keys (bundles i) = Except.ok (evs, PassOutcome.cont))
    (hce : (check_elements { ct with fp_iteration := i } (cells i)).1 = false) :
    adaptIter flags keys bundles cells (i :: rest) ct =
      ⟨evs ++ (adaptIter flags keys bundles cells rest
          ((check_maxiter (check_elements { ct with fp_iteration := i }
            (cells i)).2).2)).events,
        i :: (adaptIter flags keys bundles cells rest
          ((check_maxiter (check_elements { ct with fp_iteration := i }
            (cells i)).2).2)).passes,
        (adaptIter flags keys bundles cells rest
          ((check_maxiter (check_elements { ct with fp_iteration := i }
            (cells i)).2).2)).ct,
        (adaptIter flags keys bundles cells rest
          ((check_maxiter (check_elements { ct with fp_iteration := i }
            (cells i)).2).2)).err⟩ := by
  simp [adaptIter, hpb, hce]

theorem adaptIter_passes_cons (flags : AdaptFlags) (keys : List String)
    (bundles : Nat → GoBundle) (cells : Nat → Nat) (i : Nat) (rest : List Nat)
    (ct : ConvergenceTracker) :
    ∃ p, (adaptIter flags keys bundles cells (i :: rest) ct).passes = i :: p := by
  rcases hpb : passBody flags keys (bundles i) with e | ⟨evs, o⟩
  · exact ⟨[], by simp [adaptIter, hpb]⟩
  · cases o with
    | brk => exact ⟨[], by simp [adaptIter, hpb]⟩
    | cont =>
      cases hce : (check_elements { ct with fp_iteration := i } (cells i)).1
      · exact ⟨(adaptIter flags keys bundles cells rest
            ((check_maxiter (check_elements { ct with fp_iteration := i }
              (cells i)).2).2)).passes,
          by rw [adaptIter_cons_cont_eq flags keys bundles cells i rest ct evs hpb hce]⟩
      · exact ⟨[], by simp [adaptIter, hpb, hce]⟩

theorem adaptIter_passes_length (flags : AdaptFlags) (keys : List String)
    (bundles : Nat → GoBundle) (cells : Nat → Nat) :
    ∀ (l : List Nat) (ct : ConvergenceTracker),
      (adaptIter flags keys bundles cells l ct).passes.length ≤ l.length := by
  intro l
  induction l with
  | nil => intro ct; simp [adaptIter]
  | cons i rest ih =>
    intro ct
    rcases hpb : passBody flags keys (bundles i) with e | ⟨evs, o⟩
    · simp [adaptIter, hpb]
    · cases o with
      | brk => simp [adaptIter, hpb]
      | cont =>
        cases hce : (check_elements { ct with fp_iteration := i } (cells i)).1
        · simp only [adaptIter, hpb, hce, Bool.false_eq_true, if_false,
            List.length_cons]
          exact Nat.succ_le_succ (ih _)
        · simp [adaptIter, hpb, hce]

theorem adaptIter_passes_prefix (flags : AdaptFlags) (keys : List String)
    (bundles : Nat → GoBundle) (cells : Nat → Nat) :
    ∀ (l : List Nat) (ct : ConvergenceTracker),
      ∃ t, (adaptIter flags keys bundles cells l ct).passes ++ t = l := by
  intro l
  induction l with
  | nil => intro ct; exact ⟨[], by simp [adaptIter]⟩
  | cons i rest ih =>
    intro ct
    rcases hpb : passBody flags keys (bundles i) with e | ⟨evs, o⟩
    · exact ⟨rest, by simp [adaptIter, hpb]⟩
    · cases o with
      | brk => exact ⟨rest, by simp [adaptIter, hpb]⟩
      | cont =>
        cases hce : (check_elements { ct with fp_iteration := i } (cells i)).1
        · obtain ⟨t, ht⟩ := ih ((check_maxiter
            (check_elements { ct with fp_iteration := i } (cells i)).2).2)
          refine ⟨t, ?_⟩
          simp only [adaptIter, hpb, hce, Bool.false_eq_true, if_false,
            List.cons_append]
          exact congrArg (i :: ·) ht
        · exact ⟨rest, by simp [adaptIter, hpb, hce]⟩

theorem adaptIter_fp_getLast (flags : AdaptFlags) (keys : List String)
    (bundles : Nat → GoBundle) (cells : Nat → Nat) :
    ∀ (l : List Nat) (ct : ConvergenceTracker), l ≠ [] →
      (adaptIter flags keys bundles cells l ct).passes.getLast? =
        some (adaptIter flags keys bundles cells l ct).ct.fp_iteration := by
  intro l
  induction l with
  | nil => intro ct h; exact absurd rfl h
  | cons i rest ih =>
    intro ct _
    rcases hpb : passBody flags keys (bundles i) with e | ⟨evs, o⟩
    · simp [adaptIter, hpb]
    · cases o with
      | brk => simp [adaptIter, hpb]
      | cont =>
        cases hce : (check_elements { ct with fp_iteration := i } (cells i)).1
        case true =>
          simp [adaptIter, hpb, hce, check_elements_fp_iteration]
        case false =>
          rcases hrest : rest with _ | ⟨j, rest2⟩
          · subst hrest
            simp [adaptIter, hpb, hce, check_maxiter_fp_iteration,
              check_elements_fp_iteration]
          · subst hrest
            obtain ⟨p, hp⟩ := adaptIter_passes_cons flags keys bundles cells j rest2
              ((check_maxiter
                (check_elements { ct with fp_iteration := i } (cells i)).2).2)
            have hih := ih ((check_maxiter
              (check_elements { ct with fp_iteration := i } (cells i)).2).2)
              (by simp)
            rw [adaptIter_cons_cont_eq flags keys bundles cells i (j :: rest2) ct
              evs hpb hce]
            rw [hp] at hih ⊢
            rw [List.getLast?_cons_cons]
            exact hih

/-! ## Claim C4 -/

/-- Claim C4 (amended): every run of the adaptation loop executes at most
`maxiter + 1` passes of its body; the tracker's `fp_iteration` counter over
the run is the sequence `0, 1, 2, ...` of pass indices, hence monotonically
non-decreasing; and the final counter value is the zero-based index of the
last executed pass, so the number of passes equals the final counter plus
one (rather than the counter itself). -/
theorem adapt_loop_iteration_accounting (flags : AdaptFlags) (keys : List String)
    (bundles : Nat → GoBundle) (cells : Nat → Nat) (ct0 : ConvergenceTracker) :
    (run_adapt flags keys bundles cells ct0).passes.length ≤ ct0.maxiter + 1
  ∧ (run_adapt flags keys bundles cells ct0).passes =
      List.range (run_adapt flags keys bundles cells ct0).passes.length
  ∧ (run_adapt flags keys bundles cells ct0).passes.Pairwise (· ≤ ·)
  ∧ (run_adapt flags keys bundles cells ct0).passes.length =
      (run_adapt flags keys bundles cells ct0).ct.fp_iteration + 1 := by
  have hrw : run_adapt flags keys bundles cells ct0 =
      adaptIter flags keys bundles cells (List.range (ct0.maxiter + 1)) ct0 := rfl
  rw [hrw]
  set A := adaptIter flags keys bundles cells (List.range (ct0.maxiter + 1)) ct0
    with hA
  obtain ⟨t, ht⟩ := adaptIter_passes_prefix flags keys bundles cells
    (List.range (ct0.maxiter + 1)) ct0
  rw [← hA] at ht
  have hlen : A.passes.length ≤ ct0.maxiter + 1 := by
    have := adaptIter_passes_length flags keys bundles cells
      (List.range (ct0.maxiter + 1)) ct0
    rw [← hA] at this
    simpa using this
  have hpasses : A.passes = List.range A.passes.length := by
    have h1 : A.passes = (A.passes ++ t).take A.passes.length :=
      (List.take_left A.passes t).symm
    rw [ht] at h1
    conv_lhs => rw [h1]
    rw [List.take_range, min_eq_left hlen]
  have hlast : A.passes.getLast? = some A.ct.fp_iteration := by
    have := adaptIter_fp_getLast flags keys bundles cells
      (List.range (ct0.maxiter + 1)) ct0 (by simp [List.range_eq_nil])
    rw [← hA] at this
    exact this
  refine ⟨hlen, hpasses, ?_, ?_⟩
  · rw [hpasses]
    exact (List.pairwise_lt_range _).imp fun h => le_of_lt h
  · rcases hk : A.passes.length with _ | k
    · rw [hpasses, hk] at hlast
      simp at hlast
    · have hp2 : A.passes = List.range (k + 1) := by rw [hpasses, hk]
      rw [hp2, List.range_succ, List.getLast?_concat] at hlast
      simp only [Option.some.injEq] at hlast
      omega

/-- Claim C4 counterexample: a concrete run (constant element counts, full
bundles, tolerance 1/100, maxiter 3) performs two passes and two
mesh-adaptation calls, yet the tracker's final iteration counter is 1, so
the counter does not equal the number of adaptation cycles performed. -/
theorem adapt_loop_counter_cex :
    (run_adapt ⟨true, true, false⟩ []
        (fun _ => ⟨1, ⟨[1], 5⟩, some 2, some ⟨[1], 5⟩, some [FVal.finite 1], some [1]⟩)
        (fun _ => 100) ⟨3, 1/100, none, 0, none⟩).ct.fp_iteration = 1
  ∧ ((run_adapt ⟨true, true, false⟩ []
        (fun _ => ⟨1, ⟨[1], 5⟩, some 2, some ⟨[1], 5⟩, some [FVal.finite 1], some [1]⟩)
        (fun _ => 100) ⟨3, 1/100, none, 0, none⟩).events.count
          AdaptEvent.adaptMesh) = 2
  ∧ ((run_adapt ⟨true, true, false⟩ []
        (fun _ => ⟨1, ⟨[1], 5⟩, some 2, some ⟨[1], 5⟩, some [FVal.finite 1], some [1]⟩)
        (fun _ => 100) ⟨3, 1/100, none, 0, none⟩).passes.length) = 2
  ∧ (1 : Nat) ≠ 2 := by
  refine ⟨?_, ?_, ?_, by omega⟩
  · norm_num [run_adapt, adaptIter, passBody, check_elements, check_maxiter,
      relChange, dictGet, featureBlock, pure, Except.pure, bind, Except.bind]
  · norm_num [run_adapt, adaptIter, passBody, check_elements, check_maxiter,
      relChange, dictGet, featureBlock, pure, Except.pure, bind, Except.bind,
      List.count_cons]
    decide
  · norm_num [run_adapt, adaptIter, passBody, check_elements, check_maxiter,
      relChange, dictGet, featureBlock, pure, Except.pure, bind, Except.bind]

/-! ## Claims C5 and C6 -/

/-- Claim C5: `check_elements` returns true iff the relative change between
the count and the previously recorded count is below the tolerance; on the
very first call it returns false regardless of the value and only records
the baseline; whenever it returns false it records the count as the new
previous value; and with tolerance 1/100 the counts [100, 100, 100] yield
[false, true, true]. -/
theorem check_elements_spec (ct : ConvergenceTracker) (count : Nat) :
    (ct.elements_old = none →
       check_elements ct count = (false, { ct with elements_old := some count }))
  ∧ (∀ p, ct.elements_old = some p →
       ((check_elements ct count).1 = true ↔
         relChange (count : ℚ) (p : ℚ) < ct.element_rtol))
  ∧ ((check_elements ct count).1 = false →
       (check_elements ct count).2.elements_old = some count)
  ∧ feedElements ⟨3, 1/100, none, 0, none⟩ [100, 100, 100] = [false, true, true] := by
  refine ⟨?_, ?_, ?_, ?_⟩
  · intro h; simp [check_elements, h]
  · intro p h
    simp only [check_elements, h]
    split
    · rename_i hlt; simpa using hlt
    · rename_i hlt; simpa using hlt
  · intro h
    rcases hold : ct.elements_old with _ | p
    · simp [check_elements, hold]
    · simp only [check_elements, hold] at h ⊢
      rcases lt_or_le (relChange (count : ℚ) (p : ℚ)) ct.element_rtol with hlt | hge
      · rw [if_pos hlt] at h
        simp at h
      · rw [if_neg (not_lt.mpr hge)]
  · norm_num [feedElements, check_elements, relChange]

/-- Claim C5 witness: on a tracker with no previously recorded count, the
first call records the baseline and returns false. -/
theorem check_elements_spec_witness :
    check_elements ⟨3, 1/100, none, 0, none⟩ 50 = (false, ⟨3, 1/100, some 50, 0, none⟩) :=
  (check_elements_spec ⟨3, 1/100, none, 0, none⟩ 50).1 rfl

/-- Claim C6: `check_maxiter` signals exactly when the iteration index
equals the configured maximum and never before (strictly below the maximum
it signals nothing and leaves the tracker untouched); when it signals, it
records the max-iteration terminal condition, which differs from both the
element-count and the quantity-of-interest convergence conditions. -/
theorem check_maxiter_spec (ct : ConvergenceTracker) :
    ((check_maxiter ct).1 = true ↔ ct.fp_iteration = ct.maxiter)
  ∧ (ct.fp_iteration < ct.maxiter → check_maxiter ct = (false, ct))
  ∧ ((check_maxiter ct).1 = true →
       (check_maxiter ct).2.converged_reason = some ConvergedReason.maxiterReached)
  ∧ ConvergedReason.maxiterReached ≠ ConvergedReason.elementConverged
  ∧ ConvergedReason.maxiterReached ≠ ConvergedReason.qoiConverged := by
  refine ⟨?_, ?_, ?_, by decide, by decide⟩
  · by_cases h : ct.fp_iteration = ct.maxiter
    · simp [check_maxiter, h]
    · simp [check_maxiter, h]
  · intro h
    have hne : ¬ ct.fp_iteration = ct.maxiter := by omega
    simp [check_maxiter, hne]
  · intro h
    by_cases hne : ct.fp_iteration = ct.maxiter
    · simp [check_maxiter, hne]
    · simp [check_maxiter, hne] at h

/-- Claim C6 witness: at iteration index equal to the maximum the guard
fires with the max-iteration condition; one step earlier it does not
fire. -/
theorem check_maxiter_spec_witness :
    (check_maxiter ⟨3, 1/100, none, 3, none⟩).1 = true
  ∧ check_maxiter ⟨3, 1/100, none, 2, none⟩ = (false, ⟨3, 1/100, none, 2, none⟩) :=
  ⟨(check_maxiter_spec ⟨3, 1/100, none, 3, none⟩).1.mpr rfl,
   (check_maxiter_spec ⟨3, 1/100, none, 2, none⟩).2.1 (by decide)⟩

/-! ## Claim C1 -/

/-- Claim C1: evaluating the uniform sweep on a three-level hierarchy.  The
first level computes and prints its quantity of interest (J = 7), but the
append on line 39 references the unbound name `qoi` and raises `NameError`,
so the sweep aborts during level 0: all three in-memory arrays stay empty
and none of the three files is ever written — the claim's per-level
recording and persistence never happen. -/
theorem uniform_sweep_qoi_name_error :
    runSweep (fun _ => (7 : ℚ)) (fun i => 10 * (i + 1)) (fun i => 4 * (i + 1)) 3 =
      (⟨[], [], [], [7], ⟨none, none, none⟩⟩, some (PyError.nameError "qoi")) := rfl

/-! ## Claim C2 -/

/-- Claim C2 counterexample: a bundle that is missing the optional key
`estimator` (while `adjoint`, `dwr` and `metric` are present) does not make
the loop body exit cleanly — line 86 of run_adapt.py raises `KeyError`. -/
theorem passBody_missing_estimator_cex :
    passBody ⟨true, true, false⟩ []
        ⟨1, ⟨[1], 5⟩, none, some ⟨[1], 5⟩, some [FVal.finite 1], some [1]⟩ =
      .error (PyError.keyError "estimator") := rfl

/-- Claim C2 (amended): a bundle lacking `adjoint` makes the loop body
report the quantity-of-interest and DoF count and break cleanly; a bundle
with `adjoint` and `estimator` but lacking `metric` additionally reports
the estimator and breaks cleanly; in both break cases no feature
harvesting, no metric processing and no mesh-adaptation call happens (the
event lists are exactly the reports).  A bundle with `adjoint` but lacking
`estimator`, or with `adjoint`, `estimator` and `metric` but lacking `dwr`,
instead raises a `KeyError`. -/
theorem passBody_optional_keys (flags : AdaptFlags) (keys : List String)
    (out : GoBundle) :
    (out.adjoint = none →
       passBody flags keys out =
         .ok ([AdaptEvent.reportQoiDof out.qoi out.forward.dof], PassOutcome.brk))
  ∧ (∀ f e, out.adjoint = some f → out.estimator = some e → out.metric = none →
       passBody flags keys out =
         .ok ([AdaptEvent.reportQoiDof out.qoi out.forward.dof,
               AdaptEvent.reportEstimator e], PassOutcome.brk))
  ∧ (∀ f, out.adjoint = some f → out.estimator = none →
       passBody flags keys out = .error (PyError.keyError "estimator"))
  ∧ (∀ f e m, out.adjoint = some f → out.estimator = some e →
       out.metric = some m → out.dwr = none →
       passBody flags keys out = .error (PyError.keyError "dwr")) := by
  refine ⟨?_, ?_, ?_, ?_⟩
  · intro h
    simp [passBody, h, dictGet, pure, Except.pure, bind, Except.bind]
  · intro f e ha he hm
    simp [passBody, ha, he, hm, dictGet, pure, Except.pure, bind, Except.bind]
  · intro f ha he
    simp [passBody, ha, he, dictGet, pure, Except.pure, bind, Except.bind]
  · intro f e m ha he hm hd
    simp [passBody, ha, he, hm, hd, dictGet, pure, Except.pure, bind, Except.bind]

/-- Claim C2 witness: a bundle with no `adjoint` key reports the QoI and
DoF count and breaks cleanly. -/
theorem passBody_optional_keys_witness :
    passBody ⟨false, false, true⟩ ["f"] ⟨3, ⟨[2], 8⟩, some 1, none, none, none⟩ =
      .ok ([AdaptEvent.reportQoiDof 3 8], PassOutcome.brk) :=
  (passBody_optional_keys ⟨false, false, true⟩ ["f"]
    ⟨3, ⟨[2], 8⟩, some 1, none, none, none⟩).1 rfl

/-! ## Claim C3 -/

/-- Claim C3 counterexample: a harvested target array containing an
infinity (a non-finite value that is not NaN) does not abort the run — the
guard on line 118 checks `np.isnan` only, so the feature and target files
are written. -/
theorem featureBlock_infinity_cex :
    featureBlock false ["a"] [FVal.inf] =
      .ok [AdaptEvent.saveFeature "a", AdaptEvent.saveTarget]
  ∧ FVal.isfinite FVal.inf = false := ⟨rfl, rfl⟩

/-- Claim C3 (amended): the feature-extraction block aborts with an
assertion error exactly when the target array contains a NaN, and the abort
happens before any feature or target file is written (the error result
carries no write events); when the target contains no NaN — even if it
contains infinities — the feature files and then the target file are
written. -/
theorem featureBlock_nan_guard (keys : List String) (target : List FVal) :
    (featureBlock false keys target =
        .error (PyError.assertionError AssertSite.targetFinite) ↔
      target.any FVal.isnan = true)
  ∧ (target.any FVal.isnan = false →
      featureBlock false keys target =
        .ok (keys.map AdaptEvent.saveFeature ++ [AdaptEvent.saveTarget])) := by
  constructor
  · cases h : target.any FVal.isnan
    · simp [featureBlock, h, pure, Except.pure, throw, throwThe, MonadExceptOf.throw]
    · simp [featureBlock, h, pure, Except.pure, throw, throwThe, MonadExceptOf.throw]
  · intro h
    simp [featureBlock, h, pure, Except.pure, throw, throwThe, MonadExceptOf.throw]

/-- Claim C3 witness: a NaN in the target aborts before any write; an
all-finite target writes the feature file then the target file. -/
theorem featureBlock_nan_guard_witness :
    featureBlock false ["a"] [FVal.nan] =
      .error (PyError.assertionError AssertSite.targetFinite)
  ∧ featureBlock false ["b"] [FVal.finite 2] =
      .ok [AdaptEvent.saveFeature "b", AdaptEvent.saveTarget] :=
  ⟨(featureBlock_nan_guard ["a"] [FVal.nan]).1.mpr rfl,
   (featureBlock_nan_guard ["b"] [FVal.finite 2]).2 rfl⟩

/-! ## Claim C7 -/

/-- Claim C7: the complexity ramp is a pure function of (base, target,
iteration index) that equals the base at iteration 0, is monotonically
non-decreasing in the iteration index, stays between base and target, and
equals the target at and after the configured fully-ramped iteration. -/
theorem ramp_complexity_spec (base target : ℚ) (n : Nat)
    (hbt : base ≤ target) (hn : 0 < n) :
    ramp_complexity base target 0 n = base
  ∧ (∀ i j : Nat, i ≤ j →
      ramp_complexity base target i n ≤ ramp_complexity base target j n)
  ∧ (∀ i : Nat, n ≤ i → ramp_complexity base target i n = target)
  ∧ (∀ i : Nat, base ≤ ramp_complexity base target i n ∧
      ramp_complexity base target i n ≤ target) := by
  have hn' : (0 : ℚ) < n := by exact_mod_cast hn
  have hramp : ∀ i : Nat, ramp_complexity base target i n =
      base + min ((i : ℚ) / n) 1 * (target - base) := by
    intro i; unfold ramp_complexity; ring
  have halpha0 : ∀ i : Nat, 0 ≤ min ((i : ℚ) / n) 1 := fun i =>
    le_min (div_nonneg (Nat.cast_nonneg i) (le_of_lt hn')) zero_le_one
  have halpha1 : ∀ i : Nat, min ((i : ℚ) / n) 1 ≤ 1 := fun i => min_le_right _ _
  refine ⟨?_, ?_, ?_, ?_⟩
  · rw [hramp 0]
    norm_num
  · intro i j hij
    rw [hramp i, hramp j]
    have hmono : min ((i : ℚ) / n) 1 ≤ min ((j : ℚ) / n) 1 :=
      min_le_min (div_le_div_of_nonneg_right (Nat.cast_le.mpr hij) (le_of_lt hn')) le_rfl
    have := mul_le_mul_of_nonneg_right hmono (sub_nonneg.mpr hbt)
    linarith
  · intro i hni
    rw [hramp i]
    have h1 : (1 : ℚ) ≤ (i : ℚ) / n := (one_le_div hn').mpr (by exact_mod_cast hni)
    rw [min_eq_right h1]
    ring
  · intro i
    constructor
    · rw [hramp i]
      have := mul_nonneg (halpha0 i) (sub_nonneg.mpr hbt)
      linarith
    · rw [hramp i]
      have := mul_le_mul_of_nonneg_right (halpha1 i) (sub_nonneg.mpr hbt)
      linarith

/-- Claim C7 witness: with base 200, target 1000 and the fully-ramped
iteration at 3, the ramp starts at 200 and reaches 1000 at iteration 3. -/
theorem ramp_complexity_spec_witness :
    ramp_complexity 200 1000 0 3 = 200 ∧ ramp_complexity 200 1000 3 3 = 1000 :=
  ⟨(ramp_complexity_spec 200 1000 3 (by norm_num) (by norm_num)).1,
   (ramp_complexity_spec 200 1000 3 (by norm_num) (by norm_num)).2.2.1 3 le_rfl⟩

/-! ## Claim C9 -/

theorem zip_replicate_map (P : ℚ → ℚ) :
    ∀ l : List ℚ,
      ((List.replicate l.length (0 : ℚ)).zip l).map (fun p => P p.2) = l.map P := by
  intro l
  induction l with
  | nil => rfl
  | cons a tl ih => simpa [List.replicate_succ] using ih

/-- Claim C9: when the transfer option is enabled, a pass that falls
through to adaptation installs the projected initial guess; and the `proj`
function returns the function it allocated on the new space `V`, whose data
is the projection of the previous forward solution — identically whether the
direct projection succeeds or raises `NotImplementedError` and the
component-wise fallback runs. -/
theorem proj_transfer_spec (P : ℚ → ℚ) (V : FunctionSpace) (fwd_sol : FdFunction)
    (hlen : fwd_sol.comps.length = V.nComp) :
    proj P V fwd_sol = ⟨fwd_sol.comps.map P, V.dof⟩
  ∧ (∀ (flags : AdaptFlags) (keys : List String) (out : GoBundle)
       (evs : List AdaptEvent), flags.transfer = true →
       passBody flags keys out = .ok (evs, PassOutcome.cont) →
       AdaptEvent.setInitialGuess ∈ evs) := by
  constructor
  · cases hmix : V.mixedProjectUnsupported
    · simp [proj, projectFunction, functionOn, hmix, pure, Except.pure]
    · simp only [proj, projectFunction, functionOn, hmix, if_true, throw,
        throwThe, MonadExceptOf.throw]
      rw [← hlen]
      simp [zip_replicate_map P fwd_sol.comps]
  · intro flags keys out evs htr hpb
    rcases out with ⟨q, fwd, est, adj, dwr, met⟩
    rcases adj with _ | f
    · simp [passBody, pure, Except.pure, bind, Except.bind] at hpb
    · rcases est with _ | e
      · simp [passBody, dictGet, pure, Except.pure, bind, Except.bind, throw,
          throwThe, MonadExceptOf.throw] at hpb
      · rcases met with _ | m
        · simp [passBody, dictGet, pure, Except.pure, bind, Except.bind] at hpb
        · rcases dwr with _ | d
          · simp [passBody, dictGet, pure, Except.pure, bind, Except.bind, throw,
              throwThe, MonadExceptOf.throw] at hpb
          · rcases hfb : featureBlock flags.optimise keys d with fe | fevs
            · simp [passBody, dictGet, hfb, pure, Except.pure, bind,
                Except.bind] at hpb
            · simp [passBody, dictGet, hfb, htr, pure, Except.pure, bind,
                Except.bind] at hpb
              rw [← hpb]
              simp

/-- Claim C9 witness: a two-component solution projected onto a mixed space
(direct projection unsupported, so the component-wise fallback runs) lands
on the new space with the projected data. -/
theorem proj_transfer_spec_witness :
    proj (fun x => x + 1) ⟨2, 9, true⟩ ⟨[3, 4], 7⟩ = ⟨[4, 5], 9⟩ := by
  have h := (proj_transfer_spec (fun x => x + 1) ⟨2, 9, true⟩ ⟨[3, 4], 7⟩ rfl).1
  rw [h]
  norm_num

/-! ## Claim C10 -/

/-- Claim C10: in the adaptation script, a `test_case` string that converts
to an integer `n ≤ 0` raises an `AssertionError` during argument handling
(a positive conversion yields the integer case), and the string fallback is
taken exactly when the integer conversion itself raises `ValueError`. -/
theorem parse_test_case_spec (s : String) (n : Int) :
    (pyInt s = some n → n ≤ 0 →
      parse_test_case s = .error (PyError.assertionError AssertSite.adaptTestCase))
  ∧ (pyInt s = some n → 0 < n →
      parse_test_case s = .ok (TestCase.intCase n))
  ∧ (pyInt s = none → parse_test_case s = .ok (TestCase.strCase s)) := by
  refine ⟨?_, ?_, ?_⟩
  · intro h hle
    simp [parse_test_case, h, show ¬ n > 0 by omega]
  · intro h hpos
    simp [parse_test_case, h, hpos]
  · intro h
    simp [parse_test_case, h]

/-- Claim C10 witness: the strings "0" and "-3" convert to non-positive
integers and raise the assertion instead of falling back to string
identifiers. -/
theorem parse_test_case_spec_witness :
    parse_test_case "0" = .error (PyError.assertionError AssertSite.adaptTestCase)
  ∧ parse_test_case "-3" = .error (PyError.assertionError AssertSite.adaptTestCase) :=
  ⟨(parse_test_case_spec "0" 0).1 rfl le_rfl,
   (parse_test_case_spec "-3" (-3)).1 rfl (by norm_num)⟩

/-! ## Claim C8 -/

theorem mem_range12_iff (t : Int) :
    t ∈ (List.range 12).map Int.ofNat ↔ 0 ≤ t ∧ t < 12 := by
  simp only [List.mem_map, List.mem_range, Int.ofNat_eq_natCast]
  constructor
  · rintro ⟨a, ha, rfl⟩
    omega
  · intro h
    exact ⟨t.toNat, by omega, by omega⟩

theorem runSweepFrom_err (qoiOf : Nat → ℚ) (dofOf cellsOf : Nat → Nat) :
    ∀ (l : List Nat) (st : SweepState),
      (runSweepFrom qoiOf dofOf cellsOf l st).2 = none ∨
      (runSweepFrom qoiOf dofOf cellsOf l st).2 = some (PyError.nameError "qoi") := by
  intro l
  induction l with
  | nil => intro st; left; rfl
  | cons i rest ih => intro st; right; rfl

/-- Claim C8: the uniform-refinement script validates that the model is one
of the two known models and that the test case lies in range(12), failing
with an assertion error before any heavy computation (the sweep state is
untouched and no level is solved) whenever either validation fails; when
both are valid, neither of those two assertions fires — whatever error the
rest of the run may produce is not one of them. -/
theorem uniform_cli_validation (model tc : String) (nref : Option String)
    (t : Int) (qoiOf : Nat → ℚ) (dofOf cellsOf : Nat → Nat) :
    (¬ (model = "stokes" ∨ model = "turbine") →
      run_uniform_refinement model tc nref qoiOf dofOf cellsOf =
        (initSweepState, some (PyError.assertionError AssertSite.modelCheck)))
  ∧ ((model = "stokes" ∨ model = "turbine") → pyInt tc = some t →
      ¬ (0 ≤ t ∧ t < 12) →
      run_uniform_refinement model tc nref qoiOf dofOf cellsOf =
        (initSweepState, some (PyError.assertionError AssertSite.testCaseCheck)))
  ∧ ((model = "stokes" ∨ model = "turbine") → pyInt tc = some t →
      0 ≤ t → t < 12 →
      ∀ e, (run_uniform_refinement model tc nref qoiOf dofOf cellsOf).2 = some e →
        e ≠ PyError.assertionError AssertSite.modelCheck ∧
        e ≠ PyError.assertionError AssertSite.testCaseCheck) := by
  refine ⟨?_, ?_, ?_⟩
  · intro h
    simp [run_uniform_refinement, uniformArgs, h, throw, throwThe,
      MonadExceptOf.throw, bind, Except.bind, pure, Except.pure]
  · intro h1 h2 h3
    have hmem : ¬ t ∈ (List.range 12).map Int.ofNat := by
      rw [mem_range12_iff]; exact h3
    simp [run_uniform_refinement, uniformArgs, h1, h2, hmem, throw, throwThe,
      MonadExceptOf.throw, bind, Except.bind, pure, Except.pure]
  · intro h1 h2 h3 h4 e he
    have hmem : t ∈ (List.range 12).map Int.ofNat := (mem_range12_iff t).mpr ⟨h3, h4⟩
    have hargs : ∀ cfg, uniformArgs model tc nref = .ok cfg →
        e = PyError.nameError "qoi" := by
      intro cfg hok
      simp only [run_uniform_refinement, hok] at he
      rcases runSweepFrom_err qoiOf dofOf cellsOf
          (List.range (cfg.num_refinements.toNat + 1)) initSweepState with hz | hz
      · rw [runSweep, hz] at he
        exact absurd he (by simp)
      · rw [runSweep, hz] at he
        exact (Option.some.injEq _ _ ▸ he).symm ▸ rfl
    have hshape : (∃ cfg, uniformArgs model tc nref = .ok cfg) ∨
        uniformArgs model tc nref = .error PyError.valueError ∨
        uniformArgs model tc nref =
          .error (PyError.assertionError AssertSite.numRefinementsCheck) := by
      rcases nref with _ | s
      · left
        refine ⟨⟨model, t, 5⟩, ?_⟩
        simp [uniformArgs, h1, h2, hmem, bind, Except.bind, pure, Except.pure]
      · by_cases hs : s = ""
        · left
          refine ⟨⟨model, t, 5⟩, ?_⟩
          simp [uniformArgs, h1, h2, hmem, hs, bind, Except.bind, pure, Except.pure]
        · rcases hpy : pyInt s with _ | n
          · right; left
            simp [uniformArgs, h1, h2, hmem, hs, hpy, bind, Except.bind, pure,
              Except.pure, throw, throwThe, MonadExceptOf.throw]
          · by_cases hn : 0 ≤ n
            · left
              refine ⟨⟨model, t, n⟩, ?_⟩
              simp [uniformArgs, h1, h2, hmem, hs, hpy, hn, bind, Except.bind,
                pure, Except.pure]
            · right; right
              simp [uniformArgs, h1, h2, hmem, hs, hpy, hn, bind, Except.bind,
                pure, Except.pure, throw, throwThe, MonadExceptOf.throw]
    rcases hshape with ⟨cfg, hok⟩ | herr | herr
    · have := hargs cfg hok
      subst this
      exact ⟨by simp, by simp⟩
    · simp only [run_uniform_refinement, herr] at he
      simp only [Option.some.injEq] at he
      subst he
      exact ⟨by simp, by simp⟩
    · simp only [run_uniform_refinement, herr] at he
      simp only [Option.some.injEq] at he
      subst he
      exact ⟨by simp, by simp⟩

/-- Claim C8 witness: an unknown model name fails the model assertion
before any sweep state is produced; a valid pair passes both checks (here
the run proceeds to the sweep, whose abort is the unrelated `NameError`). -/
theorem uniform_cli_validation_witness :
    run_uniform_refinement "navier" "3" none (fun _ => 0) (fun _ => 0) (fun _ => 0) =
      (initSweepState, some (PyError.assertionError AssertSite.modelCheck))
  ∧ run_uniform_refinement "stokes" "13" none (fun _ => 0) (fun _ => 0) (fun _ => 0) =
      (initSweepState, some (PyError.assertionError AssertSite.testCaseCheck)) :=
  ⟨(uniform_cli_validation "navier" "3" none 3 (fun _ => 0) (fun _ => 0)
      (fun _ => 0)).1 (by decide),
   (uniform_cli_validation "stokes" "13" none 13 (fun _ => 0) (fun _ => 0)
      (fun _ => 0)).2.1 (by decide) rfl (by decide)⟩

end NnAdapt
